import Mathlib

/-!
Shallow embedding of `src/composites.rs` from the swagger-rs fork: a
composite HTTP service that dispatches an incoming request to the first
registered child service whose base path is a literal string-prefix of the
request path, together with the `CompositeMakeService` factory that builds
all child services and bundles them with their base paths.

Modelling decisions:
* A hyper `Request` is modelled by the only part the code inspects, its URI
  path (`req.uri().path()`), plus an opaque body.
* A boxed child service (`Box<dyn Service<...>>`, called through `&mut self`)
  is modelled as a state-transition function together with its current
  internal state; calling the service consumes the state and returns the new
  one, mirroring the mutation allowed by `&mut`.
* Futures are collapsed to their resolved values: a fallible asynchronous
  computation becomes `Except`.  `futures::future::join_all` over already
  resolved fallible results becomes `joinAll` below (all-ok collects the
  values in order; any error aborts with the first error).
-/

/-- Rust `str::starts_with(pat)` for a string pattern: `pat` is a literal
prefix of `s`.  Modelled on the character sequences of the two strings (for
valid UTF-8 the byte-prefix test of Rust coincides with the character-prefix
test). -/
def strStartsWith (s pat : String) : Bool :=
  pat.data.isPrefixOf s.data

/-- The part of `hyper::Request` the code uses: `req.uri().path()` and the body. -/
structure Request (ReqBody : Type) where
  uriPath : String
  body : ReqBody

/-- The part of `hyper::Response` the code constructs or forwards: a status
code and a body. -/
structure Response (ResBody : Type) where
  status : Nat
  body : ResBody
deriving Repr, DecidableEq

/-- `StatusCode::NOT_FOUND`. -/
def statusCodeNotFound : Nat := 404

/-- Trait `NotFound<V>`: a default "not found" response for body type `V`. -/
class NotFound (V : Type) where
  not_found : Response V

/-- `impl<B: Default> NotFound<Body> for Body`: a 404 response whose body is
`Body::default()` (lines 18-25 of `composites.rs`).  `Default` is modelled by
`Inhabited`. -/
instance instNotFoundOfDefault (B : Type) [Inhabited B] : NotFound B where
  not_found := { status := statusCodeNotFound, body := default }

/-- A boxed child service `Box<dyn Service<Request<ReqBody>,
Response=Response<ResBody>, Error=Error>>`.  The `call` field is the
transition function of the service and `state` its current internal state;
`call(&mut self, req)` is modelled by applying `call` to the current `state`
and the request, obtaining the response-or-error together with the service's
next state. -/
structure Service (ReqBody ResBody Error State : Type) where
  call : State → Request ReqBody → Except Error (Response ResBody) × State
  state : State

/-- `CompositeService`: wraps a vector of pairs of a base path and a boxed
service (line 113 of `composites.rs`). -/
structure CompositeService (ReqBody ResBody Error State : Type) where
  entries : List (String × Service ReqBody ResBody Error State)

variable {ReqBody ResBody Error State Target ServiceError : Type}

/-- The `for` loop in `CompositeService::call` (lines 125-129): scan the
entries in order; on the first entry whose base path is a prefix of the
request path (`req.uri().path().starts_with(base_path)`), call that child
service and return its result, leaving every other entry untouched; if no
entry matches, fall through.  The returned list is the entry vector after the
loop (`&mut self.0`): identical except that the matched service carries its
updated internal state. -/
def CompositeService.callLoop [NotFound ResBody] (req : Request ReqBody) :
    List (String × Service ReqBody ResBody Error State) →
      Except Error (Response ResBody) × List (String × Service ReqBody ResBody Error State)
  | [] => (Except.ok NotFound.not_found, [])
  | (basePath, service) :: rest =>
    if strStartsWith req.uriPath basePath then
      let r := service.call service.state req
      (r.1, (basePath, { service with state := r.2 }) :: rest)
    else
      let r := CompositeService.callLoop req rest
      (r.1, (basePath, service) :: r.2)

/-- `CompositeService::call` (lines 124-133): dispatch the request through the
loop; if no base path matched, return `future::ok(V::not_found())`.  The
second component is the composite after the call (the `&mut self`). -/
def CompositeService.call [NotFound ResBody]
    (self : CompositeService ReqBody ResBody Error State) (req : Request ReqBody) :
    Except Error (Response ResBody) × CompositeService ReqBody ResBody Error State :=
  let r := CompositeService.callLoop req self.entries
  (r.1, ⟨r.2⟩)

/-- `futures::future::join_all` over already-resolved fallible results: all
succeed and the values are collected in order, or the computation fails with
the first error. -/
def joinAll {ε α : Type} : List (Except ε α) → Except ε (List α)
  | [] => Except.ok []
  | Except.error e :: _ => Except.error e
  | Except.ok a :: rest => (joinAll rest).map (fun l => a :: l)

/-- `CompositeMakeService`: wraps a vector of pairs of a base path and a boxed
`MakeService` (lines 51-56).  A child `MakeService` is modelled as a fallible
function from the target to a built child service. -/
structure CompositeMakeService (Target ServiceError ReqBody ResBody Error State : Type) where
  inner : List (String × (Target → Except ServiceError (Service ReqBody ResBody Error State)))

/-- `CompositeMakeService::new` (lines 60-64): the empty composite factory. -/
def CompositeMakeService.new :
    CompositeMakeService Target ServiceError ReqBody ResBody Error State :=
  ⟨[]⟩

/-- `CompositeMakeService::call` (lines 73-79): build every child service from
the target, pair each with its base path, `join_all` the results, and wrap
the list in a `CompositeService`. -/
def CompositeMakeService.call
    (self : CompositeMakeService Target ServiceError ReqBody ResBody Error State)
    (target : Target) : Except ServiceError (CompositeService ReqBody ResBody Error State) :=
  (joinAll (self.inner.map (fun ps => (ps.2 target).map (fun i => (ps.1, i))))).map
    (fun services => CompositeService.mk services)

/-! ### Helper lemmas about the dispatch loop -/

/-- Matching the empty base path always succeeds: `starts_with("")` is true
for every string. -/
theorem strStartsWith_empty (s : String) : strStartsWith s "" = true := by
  simp [strStartsWith, List.isPrefixOf]

/-- If no entry's base path matches the request path, the loop falls through
untouched. -/
theorem callLoop_of_no_match [NotFound ResBody] (req : Request ReqBody)
    (es : List (String × Service ReqBody ResBody Error State))
    (h : ∀ e ∈ es, strStartsWith req.uriPath e.1 = false) :
    CompositeService.callLoop req es = (Except.ok NotFound.not_found, es) := by
  induction es with
  | nil => rfl
  | cons e rest ih =>
    obtain ⟨bp, s⟩ := e
    have hbp := h (bp, s) (List.mem_cons_self _ _)
    have hrest := ih (fun x hx => h x (List.mem_cons_of_mem _ hx))
    simp [CompositeService.callLoop, hbp, hrest]

/-- If the entries decompose as non-matching entries, then a matching entry,
the loop returns the matching service's output and updates only that
service's state. -/
theorem callLoop_of_match [NotFound ResBody] (req : Request ReqBody)
    (pre : List (String × Service ReqBody ResBody Error State)) (bp : String)
    (s : Service ReqBody ResBody Error State)
    (post : List (String × Service ReqBody ResBody Error State))
    (hpre : ∀ e ∈ pre, strStartsWith req.uriPath e.1 = false)
    (hbp : strStartsWith req.uriPath bp = true) :
    CompositeService.callLoop req (pre ++ (bp, s) :: post) =
      ((s.call s.state req).1,
        pre ++ (bp, { s with state := (s.call s.state req).2 }) :: post) := by
  induction pre with
  | nil => simp [CompositeService.callLoop, hbp]
  | cons e pre' ih =>
    obtain ⟨bp', s'⟩ := e
    have hbp' := hpre (bp', s') (List.mem_cons_self _ _)
    have hrec := ih (fun x hx => hpre x (List.mem_cons_of_mem _ hx))
    simp [CompositeService.callLoop, hbp', hrec]

/-- The result of `call` when the first matching entry is known through
`List.find?`. -/
theorem call_of_find?_some [NotFound ResBody]
    (self : CompositeService ReqBody ResBody Error State) (req : Request ReqBody)
    (bp : String) (s : Service ReqBody ResBody Error State)
    (h : self.entries.find? (fun e => strStartsWith req.uriPath e.1) = some (bp, s)) :
    (self.call req).1 = (s.call s.state req).1 := by
  rw [List.find?_eq_some] at h
  obtain ⟨hmatch, pre, post, heq, hpre⟩ := h
  have hpre' : ∀ e ∈ pre, strStartsWith req.uriPath e.1 = false := by
    intro e he
    simpa using hpre e he
  simp [CompositeService.call, heq, callLoop_of_match req pre bp s post hpre' hmatch]

/-- The result of `call` when no entry matches. -/
theorem call_of_find?_none [NotFound ResBody]
    (self : CompositeService ReqBody ResBody Error State) (req : Request ReqBody)
    (h : self.entries.find? (fun e => strStartsWith req.uriPath e.1) = none) :
    self.call req = (Except.ok NotFound.not_found, self) := by
  rw [List.find?_eq_none] at h
  have h' : ∀ e ∈ self.entries, strStartsWith req.uriPath e.1 = false := by
    intro e he
    simpa using h e he
  simp [CompositeService.call, callLoop_of_no_match req self.entries h']

/-- `joinAll` fails whenever some element is an error. -/
theorem joinAll_error_of_mem_error {ε α : Type} (l : List (Except ε α))
    (h : ∃ x ∈ l, ∃ e, x = Except.error e) :
    ∃ e, joinAll l = Except.error e := by
  induction l with
  | nil =>
    obtain ⟨x, hx, _⟩ := h
    exact absurd hx (List.not_mem_nil x)
  | cons x rest ih =>
    cases x with
    | error e => exact ⟨e, rfl⟩
    | ok a =>
      obtain ⟨y, hy, e, he⟩ := h
      rcases List.mem_cons.mp hy with h1 | h2
      · rw [h1] at he
        exact absurd he (by simp)
      · obtain ⟨e', he'⟩ := ih ⟨y, h2, e, he⟩
        exact ⟨e', by simp [joinAll, he', Except.map]⟩

/-- When `joinAll` succeeds, it succeeds elementwise and in order. -/
theorem joinAll_ok_forall₂ {ε α : Type} (l : List (Except ε α)) (as : List α)
    (h : joinAll l = Except.ok as) :
    List.Forall₂ (fun x a => x = Except.ok a) l as := by
  induction l generalizing as with
  | nil =>
    simp only [joinAll, Except.ok.injEq] at h
    rw [← h]
    exact List.Forall₂.nil
  | cons x rest ih =>
    cases x with
    | error e => simp [joinAll] at h
    | ok a =>
      cases hrest : joinAll rest with
      | error e => rw [joinAll, hrest] at h; simp [Except.map] at h
      | ok as' =>
        rw [joinAll, hrest] at h
        simp only [Except.map, Except.ok.injEq] at h
        rw [← h]
        exact List.Forall₂.cons rfl (ih as' hrest)

/-! ### Concrete child services and factories used by the witnesses -/

/-- A concrete child service: replies 200 with body 1, counting requests in
its state. -/
def svcH1 : Service Unit Nat String Nat :=
  ⟨fun st _ => (Except.ok ⟨200, 1⟩, st + 1), 0⟩

/-- A concrete child service: replies 200 with body 2, counting requests in
its state. -/
def svcH2 : Service Unit Nat String Nat :=
  ⟨fun st _ => (Except.ok ⟨200, 2⟩, st + 1), 0⟩

/-- A concrete child service that always fails. -/
def svcFail : Service Unit Nat String Nat :=
  ⟨fun st _ => (Except.error "boom", st), 0⟩

/-- A concrete child factory that builds `svcH1`. -/
def mkSvcH1 : Unit → Except String (Service Unit Nat String Nat) :=
  fun _ => Except.ok svcH1

/-- A concrete child factory that builds `svcH2`. -/
def mkSvcH2 : Unit → Except String (Service Unit Nat String Nat) :=
  fun _ => Except.ok svcH2

/-- A concrete child factory whose build fails. -/
def mkSvcFail : Unit → Except String (Service Unit Nat String Nat) :=
  fun _ => Except.error "nope"

/-! ### The claims -/

/-- Claim C1: for every entry list and request path, `CompositeService::call`
selects the first entry in registration order whose base path is a literal
string prefix of the path, forwards the request unmodified to that entry's
service, and returns that service's response or error unmodified; if no entry
matches, no child service is selected (the canonical not-found response is
returned and the composite is untouched). -/
theorem composite_call_selects_first_match [NotFound ResBody]
    (self : CompositeService ReqBody ResBody Error State) (req : Request ReqBody) :
    (∀ bp s, self.entries.find? (fun e => strStartsWith req.uriPath e.1) = some (bp, s) →
        (self.call req).1 = (s.call s.state req).1) ∧
    (self.entries.find? (fun e => strStartsWith req.uriPath e.1) = none →
        self.call req = (Except.ok NotFound.not_found, self)) :=
  ⟨fun bp s h => call_of_find?_some self req bp s h,
   fun h => call_of_find?_none self req h⟩

/-- Witness for C1: with entries `("/a", svcH1)`, `("/b", svcH2)` and request
path `/b`, the first matching entry is `("/b", svcH2)` and the composite
returns `svcH2`'s output on the very same request. -/
theorem composite_call_selects_first_match_witness :
    ((CompositeService.mk [("/a", svcH1), ("/b", svcH2)]).call ⟨"/b", ()⟩).1
      = (svcH2.call svcH2.state ⟨"/b", ()⟩).1 :=
  (composite_call_selects_first_match
      (CompositeService.mk [("/a", svcH1), ("/b", svcH2)]) ⟨"/b", ()⟩).1
    "/b" svcH2 rfl

/-- Claim C2: for every entry list (the empty one included) and request whose
path matches no entry's base path, `CompositeService::call` returns exactly
the canonical not-found response built by `NotFound::not_found` — status 404
with a default body — and no child service is invoked (the composite is
returned untouched). -/
theorem composite_call_not_found [Inhabited ResBody]
    (self : CompositeService ReqBody ResBody Error State) (req : Request ReqBody)
    (h : ∀ e ∈ self.entries, strStartsWith req.uriPath e.1 = false) :
    self.call req = (Except.ok (NotFound.not_found : Response ResBody), self)
      ∧ (NotFound.not_found : Response ResBody)
          = { status := 404, body := (default : ResBody) } := by
  have hfind : self.entries.find? (fun e => strStartsWith req.uriPath e.1) = none :=
    List.find?_eq_none.mpr (fun x hx => by simp [h x hx])
  exact ⟨call_of_find?_none self req hfind, rfl⟩

/-- Witness for C2: a one-entry composite on base path `/a` and the
unmatched request path `/c`: the result is the 404 response with default
body, and the composite is unchanged. -/
theorem composite_call_not_found_witness :
    (CompositeService.mk [("/a", svcH1)]).call ⟨"/c", ()⟩
        = (Except.ok { status := 404, body := (default : Nat) },
            CompositeService.mk [("/a", svcH1)])
      ∧ (NotFound.not_found : Response Nat)
          = { status := 404, body := (default : Nat) } := by
  have h := composite_call_not_found (CompositeService.mk [("/a", svcH1)]) ⟨"/c", ()⟩
    (by decide)
  exact ⟨h.2 ▸ h.1, h.2⟩

/-- Claim C3: if at least one registered child factory fails to build, the
whole `CompositeMakeService::call` fails with a single error and produces no
`CompositeService`; partial success is never surfaced. -/
theorem composite_make_call_all_or_nothing
    (self : CompositeMakeService Target ServiceError ReqBody ResBody Error State)
    (target : Target)
    (h : ∃ e ∈ self.inner, ∃ err, e.2 target = Except.error err) :
    ∃ err, self.call target = Except.error err := by
  obtain ⟨e, he, err, herr⟩ := h
  have hmem : ∃ x ∈ self.inner.map (fun ps => (ps.2 target).map (fun i => (ps.1, i))),
      ∃ er, x = Except.error er := by
    refine ⟨(e.2 target).map (fun i => (e.1, i)), List.mem_map_of_mem _ he, err, ?_⟩
    simp [herr, Except.map]
  obtain ⟨er, her⟩ := joinAll_error_of_mem_error _ hmem
  refine ⟨er, ?_⟩
  unfold CompositeMakeService.call
  rw [her]
  rfl

/-- Witness for C3: a factory with a succeeding child and a failing child:
the composite build fails outright. -/
theorem composite_make_call_all_or_nothing_witness :
    ∃ err, (CompositeMakeService.mk
        [("/a", mkSvcH1), ("/b", mkSvcFail)]).call () = Except.error err :=
  composite_make_call_all_or_nothing
    (CompositeMakeService.mk [("/a", mkSvcH1), ("/b", mkSvcFail)]) ()
    ⟨("/b", mkSvcFail), by simp, "nope", rfl⟩

/-- Claim C4: when `CompositeMakeService::call` succeeds, the resulting
`CompositeService` holds exactly one entry per registered entry, in
registration order: the base paths agree pointwise and each built service is
exactly what the corresponding child factory produced — nothing is reordered,
dropped, or duplicated. -/
theorem composite_make_call_preserves_entries
    (self : CompositeMakeService Target ServiceError ReqBody ResBody Error State)
    (target : Target) (cs : CompositeService ReqBody ResBody Error State)
    (h : self.call target = Except.ok cs) :
    List.Forall₂ (fun reg ent => ent.1 = reg.1 ∧ reg.2 target = Except.ok ent.2)
      self.inner cs.entries := by
  unfold CompositeMakeService.call at h
  cases hJ : joinAll (self.inner.map (fun ps => (ps.2 target).map (fun i => (ps.1, i)))) with
  | error e => rw [hJ] at h; simp [Except.map] at h
  | ok services =>
    rw [hJ] at h
    simp only [Except.map, Except.ok.injEq] at h
    have hF := joinAll_ok_forall₂ _ _ hJ
    rw [List.forall₂_map_left_iff] at hF
    have hcs : cs.entries = services := by rw [← h]
    rw [hcs]
    refine hF.imp ?_
    intro reg ent hre
    cases hreg : reg.2 target with
    | error e => rw [hreg] at hre; simp [Except.map] at hre
    | ok svc =>
      rw [hreg] at hre
      simp only [Except.map, Except.ok.injEq] at hre
      rw [← hre]
      exact ⟨rfl, rfl⟩

/-- Witness for C4: building from two registered factories yields the two
base paths with their built services, in order. -/
theorem composite_make_call_preserves_entries_witness :
    List.Forall₂ (fun reg ent => ent.1 = reg.1 ∧ reg.2 () = Except.ok ent.2)
      [("/a", mkSvcH1), ("/b", mkSvcH2)]
      [("/a", svcH1), ("/b", svcH2)] :=
  composite_make_call_preserves_entries
    (CompositeMakeService.mk [("/a", mkSvcH1), ("/b", mkSvcH2)]) ()
    (CompositeService.mk [("/a", svcH1), ("/b", svcH2)]) rfl

/-- Claim C5: if the first matching child service's call returns an error,
`CompositeService::call` returns that same error value unchanged — the
composite never catches, masks, or translates a child's error. -/
theorem composite_call_propagates_child_error [NotFound ResBody]
    (self : CompositeService ReqBody ResBody Error State) (req : Request ReqBody)
    (bp : String) (s : Service ReqBody ResBody Error State) (err : Error)
    (hfind : self.entries.find? (fun e => strStartsWith req.uriPath e.1) = some (bp, s))
    (herr : (s.call s.state req).1 = Except.error err) :
    (self.call req).1 = Except.error err := by
  rw [call_of_find?_some self req bp s hfind, herr]

/-- Witness for C5: a composite whose matched child always fails with
`"boom"`: the composite's result is that very error. -/
theorem composite_call_propagates_child_error_witness :
    ((CompositeService.mk [("/a", svcFail)]).call ⟨"/a/x", ()⟩).1
      = Except.error "boom" :=
  composite_call_propagates_child_error
    (CompositeService.mk [("/a", svcFail)]) ⟨"/a/x", ()⟩ "/a" svcFail "boom" rfl rfl

/-- Claim C6: the dispatch test is an exact literal string-prefix test on the
raw path, with no segment-boundary awareness: `/ab` matches base path `/a`
(the one-entry composite on `/a` serves `/ab` with `svcH1`'s response, body
1), and with entries `("/", svcH1)` then `("/special", svcH2)`, the request
`/special/page` is routed to `svcH1` (body 1) because the first match wins,
even though `svcH2` (body 2) has the longer matching base path. -/
theorem composite_call_literal_first_match_policy :
    strStartsWith "/ab" "/a" = true
    ∧ ((CompositeService.mk [("/a", svcH1)]).call ⟨"/ab", ()⟩).1
        = Except.ok ⟨200, 1⟩
    ∧ ((CompositeService.mk [("/", svcH1), ("/special", svcH2)]).call
          ⟨"/special/page", ()⟩).1 = Except.ok ⟨200, 1⟩
    ∧ (svcH2.call svcH2.state ⟨"/special/page", ()⟩).1 = Except.ok ⟨200, 2⟩ :=
  ⟨rfl, rfl, rfl, rfl⟩

/-- For a fixed request, inserting an entry `E` that is shadowed (whenever
the request matches `E`'s base path, some entry of `pre` matches too) does
not change the response component of the loop. -/
theorem callLoop_fst_shadowed [NotFound ResBody] (req : Request ReqBody)
    (E : String × Service ReqBody ResBody Error State)
    (post : List (String × Service ReqBody ResBody Error State))
    (pre : List (String × Service ReqBody ResBody Error State)) :
    (strStartsWith req.uriPath E.1 = true →
        ∃ e ∈ pre, strStartsWith req.uriPath e.1 = true) →
      (CompositeService.callLoop req (pre ++ E :: post)).1 =
        (CompositeService.callLoop req (pre ++ post)).1 := by
  induction pre with
  | nil =>
    intro h
    cases hE : strStartsWith req.uriPath E.1 with
    | true =>
      obtain ⟨e, he, _⟩ := h hE
      exact absurd he (List.not_mem_nil e)
    | false =>
      obtain ⟨bpE, sE⟩ := E
      simp only at hE
      simp [CompositeService.callLoop, hE]
  | cons p pre' ih =>
    intro h
    obtain ⟨bp', s'⟩ := p
    cases hp : strStartsWith req.uriPath bp' with
    | true => simp [CompositeService.callLoop, hp]
    | false =>
      have h' : strStartsWith req.uriPath E.1 = true →
          ∃ e ∈ pre', strStartsWith req.uriPath e.1 = true := by
        intro hE
        obtain ⟨e, he, hme⟩ := h hE
        rcases List.mem_cons.mp he with h1 | h2
        · rw [h1] at hme
          rw [hme] at hp
          exact absurd hp (by simp)
        · exact ⟨e, h2, hme⟩
      simp [CompositeService.callLoop, hp, ih h']

/-- Claim C7: an entry `E` shadowed by earlier entries (every path matching
`E`'s base path also matches some earlier entry's base path, e.g. an exact
duplicate) is dead configuration: removing it never changes the routing
result, for every request. -/
theorem composite_call_shadowed_entry_removal [NotFound ResBody]
    (pre : List (String × Service ReqBody ResBody Error State))
    (E : String × Service ReqBody ResBody Error State)
    (post : List (String × Service ReqBody ResBody Error State))
    (req : Request ReqBody)
    (hsh : ∀ path : String, strStartsWith path E.1 = true →
        ∃ e ∈ pre, strStartsWith path e.1 = true) :
    ((CompositeService.mk (pre ++ E :: post)).call req).1 =
      ((CompositeService.mk (pre ++ post)).call req).1 := by
  simp only [CompositeService.call]
  exact callLoop_fst_shadowed req E post pre (hsh req.uriPath)

/-- Witness for C7: the duplicate entry `("/a", svcH2)` behind `("/a",
svcH1)` is unreachable; removing it leaves the response for `/a/x`
unchanged. -/
theorem composite_call_shadowed_entry_removal_witness :
    ((CompositeService.mk [("/a", svcH1), ("/a", svcH2)]).call ⟨"/a/x", ()⟩).1 =
      ((CompositeService.mk [("/a", svcH1)]).call ⟨"/a/x", ()⟩).1 :=
  composite_call_shadowed_entry_removal [("/a", svcH1)] ("/a", svcH2) [] ⟨"/a/x", ()⟩
    (fun _ h => ⟨("/a", svcH1), List.mem_singleton.mpr rfl, h⟩)

/-- Claim C8: `CompositeService::call` invokes at most one child service.
Either no entry matches and the call returns the not-found response with the
composite untouched, or the entries split around a first matching entry: the
result is exactly that one service's output and the returned composite
differs only in that service's internal state — entries after the first
match, and every entry when nothing matches, are never invoked and never
influence the result. -/
theorem composite_call_at_most_one_child [NotFound ResBody]
    (self : CompositeService ReqBody ResBody Error State) (req : Request ReqBody) :
    ((∀ e ∈ self.entries, strStartsWith req.uriPath e.1 = false) ∧
        self.call req = (Except.ok NotFound.not_found, self))
    ∨ (∃ pre bp s post,
        self.entries = pre ++ (bp, s) :: post ∧
        (∀ e ∈ pre, strStartsWith req.uriPath e.1 = false) ∧
        strStartsWith req.uriPath bp = true ∧
        self.call req =
          ((s.call s.state req).1,
            ⟨pre ++ (bp, { s with state := (s.call s.state req).2 }) :: post⟩)) := by
  cases hfind : self.entries.find? (fun e => strStartsWith req.uriPath e.1) with
  | none =>
    left
    have h := List.find?_eq_none.mp hfind
    exact ⟨fun e he => by simpa using h e he, call_of_find?_none self req hfind⟩
  | some e =>
    right
    rw [List.find?_eq_some] at hfind
    obtain ⟨hmatch, pre, post, heq, hpre⟩ := hfind
    have hpre' : ∀ x ∈ pre, strStartsWith req.uriPath x.1 = false := by
      intro x hx
      simpa using hpre x hx
    have hmatch' : strStartsWith req.uriPath e.1 = true := by simpa using hmatch
    refine ⟨pre, e.1, e.2, post, by simpa using heq, hpre', hmatch', ?_⟩
    simp [CompositeService.call, heq, callLoop_of_match req pre e.1 e.2 post hpre' hmatch']

/-- The loop keeps the base paths and the transition functions of all
entries, in order. -/
theorem callLoop_preserves_shape [NotFound ResBody] (req : Request ReqBody)
    (es : List (String × Service ReqBody ResBody Error State)) :
    ((CompositeService.callLoop req es).2.map Prod.fst = es.map Prod.fst) ∧
    ((CompositeService.callLoop req es).2.map (fun e => e.2.call)
        = es.map (fun e => e.2.call)) := by
  induction es with
  | nil => simp [CompositeService.callLoop]
  | cons e rest ih =>
    obtain ⟨bp, s⟩ := e
    cases hbp : strStartsWith req.uriPath bp with
    | true => simp [CompositeService.callLoop, hbp]
    | false => simp [CompositeService.callLoop, hbp, ih]

/-- Claim C9: dispatch leaves the entry list intact: after
`CompositeService::call` the composite has the same base paths, the same
services (same request-handling functions), in the same order; the entry
list is only read to select the child. -/
theorem composite_call_preserves_entry_list [NotFound ResBody]
    (self : CompositeService ReqBody ResBody Error State) (req : Request ReqBody) :
    ((self.call req).2.entries.map Prod.fst = self.entries.map Prod.fst) ∧
    ((self.call req).2.entries.map (fun e => e.2.call)
        = self.entries.map (fun e => e.2.call)) := by
  simpa [CompositeService.call] using callLoop_preserves_shape req self.entries

/-- Behind an entry with the empty base path the loop never reaches the
remaining entries: the suffix after that entry comes back untouched. -/
theorem callLoop_empty_basePath_suffix [NotFound ResBody] (req : Request ReqBody)
    (s : Service ReqBody ResBody Error State)
    (post : List (String × Service ReqBody ResBody Error State))
    (pre : List (String × Service ReqBody ResBody Error State)) :
    ∃ l, (CompositeService.callLoop req (pre ++ ("", s) :: post)).2 = l ++ post
      ∧ l.length = pre.length + 1 := by
  induction pre with
  | nil =>
    refine ⟨[("", { s with state := (s.call s.state req).2 })], ?_, rfl⟩
    simp [CompositeService.callLoop, strStartsWith_empty]
  | cons p pre' ih =>
    obtain ⟨bp', s'⟩ := p
    cases hbp : strStartsWith req.uriPath bp' with
    | true =>
      refine ⟨(bp', { s' with state := (s'.call s'.state req).2 }) :: pre' ++ [("", s)],
        ?_, by simp⟩
      simp [CompositeService.callLoop, hbp]
    | false =>
      obtain ⟨l, hl, hlen⟩ := ih
      refine ⟨(bp', s') :: l, ?_, by simp [hlen]⟩
      simp [CompositeService.callLoop, hbp, hl]

/-- Claim C10: nothing validates base paths, so an entry with the empty base
path matches every request path (`starts_with("")` is always true): for
entries `pre ++ [("", s)] ++ post`, every request matches within
`pre ++ [("", s)]`, the not-found branch is unreachable (the result is
always the selected child's output), and every entry of `post` is
unreachable — `post` comes back untouched. -/
theorem composite_call_empty_basePath [NotFound ResBody]
    (pre post : List (String × Service ReqBody ResBody Error State))
    (s : Service ReqBody ResBody Error State) (req : Request ReqBody) :
    strStartsWith req.uriPath "" = true
    ∧ (∃ e, (pre ++ [("", s)]).find? (fun x => strStartsWith req.uriPath x.1) = some e
        ∧ ((CompositeService.mk (pre ++ ("", s) :: post)).call req).1
            = (e.2.call e.2.state req).1)
    ∧ (∃ l, ((CompositeService.mk (pre ++ ("", s) :: post)).call req).2.entries
          = l ++ post ∧ l.length = pre.length + 1) := by
  refine ⟨strStartsWith_empty req.uriPath, ?_, ?_⟩
  · have hlast : (("", s) :: post).find? (fun x => strStartsWith req.uriPath x.1)
        = some ("", s) := by
      rw [List.find?_cons]
      simp [strStartsWith_empty]
    have hsingle : [("", s)].find? (fun x => strStartsWith req.uriPath x.1)
        = some ("", s) := by
      rw [List.find?_cons]
      simp [strStartsWith_empty]
    cases hp : pre.find? (fun x => strStartsWith req.uriPath x.1) with
    | some e =>
      refine ⟨e, ?_, ?_⟩
      · rw [List.find?_append, hp]
        rfl
      · refine call_of_find?_some _ req e.1 e.2 ?_
        show (pre ++ ("", s) :: post).find? (fun x => strStartsWith req.uriPath x.1)
          = some (e.1, e.2)
        rw [List.find?_append, hp]
        rfl
    | none =>
      refine ⟨("", s), ?_, ?_⟩
      · rw [List.find?_append, hp, hsingle]
        rfl
      · refine call_of_find?_some _ req "" s ?_
        show (pre ++ ("", s) :: post).find? (fun x => strStartsWith req.uriPath x.1)
          = some ("", s)
        rw [List.find?_append, hp, hlast]
        rfl
  · simpa [CompositeService.call] using callLoop_empty_basePath_suffix req s post pre
